import Mathlib

/-!
Verification of the goldfish pipe v2 guest driver (`src/goldfish_pipe_v2.c`).

Shallow embedding: machine integers become `Nat`/`Int`, device/host effects are
made explicit (event logs, oracle parameters for host responses and allocator
results), and each C function relevant to the claims is translated into a Lean
definition of the same name.
-/

namespace GoldfishPipe

/-! ## Constants from `goldfish_pipe_v2.c` -/

def PAGE_SHIFT : Nat := 12

def PAGE_SIZE : Nat := 2 ^ PAGE_SHIFT

def MAX_BUFFERS_PER_COMMAND : Nat := 336

def MAX_SIGNALLED_PIPES : Nat := 64

def INITIAL_PIPES_CAPACITY : Nat := 64

def DMA_REGION_MIN_SIZE : Nat := PAGE_SIZE

/-- `256 << 20` bytes, i.e. 256 MiB. -/
def DMA_REGION_MAX_SIZE : Nat := 256 <<< 20

/-! ## Linux errno codes (negated at use sites, as in the kernel) -/

def EIO : Int := 5

def EAGAIN : Int := 11

def ENOMEM : Int := 12

def EFAULT : Int := 14

def EBUSY : Int := 16

def EINVAL : Int := 22

def ERESTARTSYS : Int := 512

/-! ## Host protocol constants

Modelled from the spec: the header `goldfish_pipe_qemu.h` (included by the
driver) is not under `src/`; the spec's section 6 names the status codes
(generic invalid, out-of-memory, I/O error, would-block) and the wake flags
(closed / read / write).  Only the names and the distinctness of these values
matter to the driver logic; the numeric values follow the goldfish protocol. -/

/-- Modelled from the spec: host status code for a generic invalid result. -/
def PIPE_ERROR_INVAL : Int := -1

/-- Modelled from the spec: host status code for the would-block condition. -/
def PIPE_ERROR_AGAIN : Int := -2

/-- Modelled from the spec: host status code for out-of-memory. -/
def PIPE_ERROR_NOMEM : Int := -3

/-- Modelled from the spec: host status code for an I/O error. -/
def PIPE_ERROR_IO : Int := -4

/-- Modelled from the spec: wake flag bit - the host closed the pipe. -/
def PIPE_WAKE_CLOSED : Nat := 1 <<< 0

/-- Modelled from the spec: wake flag bit - the pipe can now be read. -/
def PIPE_WAKE_READ : Nat := 1 <<< 1

/-- Modelled from the spec: wake flag bit - the pipe can now be written. -/
def PIPE_WAKE_WRITE : Nat := 1 <<< 2

/-- Modelled from the spec: bit index in `goldfish_pipe::flags` marking that
the host closed the pipe. -/
def BIT_CLOSED_ON_HOST : Nat := 0

/-- Modelled from the spec: bit index in `goldfish_pipe::flags` for a waiter
blocked on a write. -/
def BIT_WAKE_ON_WRITE : Nat := 1

/-- Modelled from the spec: bit index in `goldfish_pipe::flags` for a waiter
blocked on a read. -/
def BIT_WAKE_ON_READ : Nat := 2

/-! ## DMA region manager (`goldfish_dma_context`, C7 / C8)

The DMA state of one pipe, together with an explicit log of the host map
commands issued and a count of backing allocations, so that side effects are
observable in theorems. -/

/-- `struct goldfish_dma_context`: `dma_vaddr` is `none` while the region is
created but not yet materialized (NULL kernel vaddr). -/
structure goldfish_dma_context where
  dma_vaddr : Option Nat
  dma_size : Nat
  phys_begin : Nat
  phys_end : Nat
  deriving Repr, DecidableEq

/-- The slice of pipe / device state that the DMA operations touch.
`host_map_cmds` logs each `PIPE_CMD_DMA_HOST_MAP` issued, with the physical
base and size written into the command buffer; `alloc_count` counts calls to
`dma_alloc_coherent` that succeeded. -/
structure DmaPipeState where
  dma : Option goldfish_dma_context
  dma_alloc_total : Nat
  alloc_count : Nat
  host_map_cmds : List (Nat × Nat)
  deriving Repr, DecidableEq

/-- `is_page_size_multiple`: `!(sz & (PAGE_SIZE - 1))`. -/
def is_page_size_multiple (sz : Nat) : Bool :=
  (sz &&& (PAGE_SIZE - 1)) = 0

/-- `check_region_size_valid`. -/
def check_region_size_valid (size : Nat) : Bool :=
  if size < DMA_REGION_MIN_SIZE then false
  else if size > DMA_REGION_MAX_SIZE then false
  else is_page_size_multiple size

/-- `goldfish_pipe_dma_create_region`: the `kzalloc` outcome and the
interruptibility of the mutex acquisition are oracle parameters.  Returns the
new state and the C return value. -/
def goldfish_pipe_dma_create_region (kzalloc_ok : Bool) (interrupted : Bool)
    (st : DmaPipeState) (size : Nat) : DmaPipeState × Int :=
  if kzalloc_ok then
    if interrupted then (st, - ERESTARTSYS)
    else
      match st.dma with
      | some _ => (st, - EBUSY)
      | none =>
        ({ st with
            dma := some { dma_vaddr := none, dma_size := size,
                          phys_begin := 0, phys_end := 0 } }, 0)
  else (st, - ENOMEM)

/-- `goldfish_dma_ioctl_create_region`: validates the size before reaching the
region-creation path (and before any host interaction). -/
def goldfish_dma_ioctl_create_region (copy_ok kzalloc_ok interrupted : Bool)
    (st : DmaPipeState) (size : Nat) : DmaPipeState × Int :=
  if copy_ok then
    if check_region_size_valid size then
      goldfish_pipe_dma_create_region kzalloc_ok interrupted st size
    else (st, - EINVAL)
  else (st, - EFAULT)

/-- `goldfish_pipe_dma_alloc_locked`: `alloc_result` is the oracle outcome of
`dma_alloc_coherent` (`some (vaddr, paddr)` on success).  When the region is
already materialized it returns 0 immediately with no side effect.  (The C
function dereferences `pipe->dma`; its callers only invoke it on a pipe whose
region exists, so the `none` case below is never reached by modelled callers.) -/
def goldfish_pipe_dma_alloc_locked (alloc_result : Option (Nat × Nat))
    (st : DmaPipeState) : DmaPipeState × Int :=
  match st.dma with
  | none => (st, 0)
  | some dma =>
    if dma.dma_vaddr.isSome then (st, 0)
    else
      match alloc_result with
      | none => (st, - ENOMEM)
      | some (va, pa) =>
        let dma' : goldfish_dma_context :=
          { dma_vaddr := some va, dma_size := dma.dma_size,
            phys_begin := pa, phys_end := pa + dma.dma_size }
        ({ dma := some dma',
           dma_alloc_total := st.dma_alloc_total + dma.dma_size,
           alloc_count := st.alloc_count + 1,
           host_map_cmds := st.host_map_cmds ++ [(pa, dma.dma_size)] }, 0)

/-! ## Command channel (`goldfish_pipe_cmd_locked` / `goldfish_pipe_cmd`, C6)

The command buffer header and an explicit log of doorbell register writes
(`writel(pipe->id, base + PIPE_V2_REG_CMD)`).  The host is an oracle function
transforming the buffer contents when the doorbell rings (the write is a
synchronous host call). -/

/-- The header fields of `struct goldfish_pipe_command`. -/
structure goldfish_pipe_command where
  cmd : Int
  id : Int
  status : Int
  deriving Repr, DecidableEq

/-- Command-channel state of one pipe: its command buffer plus the log of pipe
ids written to the doorbell register. -/
structure CmdChannelState where
  command_buffer : goldfish_pipe_command
  doorbell_writes : List Int
  deriving Repr, DecidableEq

/-- `goldfish_pipe_cmd_locked`: writes `cmd`, presets `status` to
` PIPE_ERROR_INVAL`, rings the doorbell (the host then processes the buffer),
and returns the status found in the buffer afterwards. -/
def goldfish_pipe_cmd_locked (host : goldfish_pipe_command → goldfish_pipe_command)
    (pipe_id : Int) (st : CmdChannelState) (cmd : Int) : CmdChannelState × Int :=
  let b1 : goldfish_pipe_command :=
    { cmd := cmd, id := st.command_buffer.id, status := PIPE_ERROR_INVAL }
  let b2 := host b1
  ({ command_buffer := b2, doorbell_writes := st.doorbell_writes ++ [pipe_id] },
   b2.status)

/-- `goldfish_pipe_cmd`: acquires the pipe lock interruptibly; if interrupted,
fails with ` PIPE_ERROR_IO` without executing the command. -/
def goldfish_pipe_cmd (interrupted : Bool)
    (host : goldfish_pipe_command → goldfish_pipe_command)
    (pipe_id : Int) (st : CmdChannelState) (cmd : Int) : CmdChannelState × Int :=
  if interrupted then (st, PIPE_ERROR_IO)
  else goldfish_pipe_cmd_locked host pipe_id st cmd

/-! ## Transfer engine (`transfer_max_buffers` and helpers, C4 / C9) -/

/-- `goldfish_pin_user_pages`: `gup_ret` is the oracle result of
`get_user_pages_fast` (the number of pages actually pinned, or `≤ 0` on
failure).  Returns the C result (pinned count or `-EFAULT`) and the final
`iter_last_page_size`. -/
def goldfish_pin_user_pages (first_page last_page : Nat) (last_page_size : Nat)
    (gup_ret : Int) : Int × Nat :=
  let requested_pages := ((last_page - first_page) >>> PAGE_SHIFT) + 1
  let capped := requested_pages > MAX_BUFFERS_PER_COMMAND
  let requested := if capped then MAX_BUFFERS_PER_COMMAND else requested_pages
  let ilps := if capped then PAGE_SIZE else last_page_size
  if gup_ret ≤ 0 then (- EFAULT, ilps)
  else if gup_ret < (requested : Int) then (gup_ret, PAGE_SIZE)
  else (gup_ret, ilps)

/-- `release_user_pages`: each of the `pages_count` loop iterations calls
`put_page` once and, when `!is_write && consumed_size > 0`, `set_page_dirty`
once.  Returns `(number of put_page calls, number of set_page_dirty calls)`. -/
def release_user_pages (pages_count : Nat) (is_write : Bool)
    (consumed_size : Int) : Nat × Nat :=
  (pages_count,
   if is_write = false ∧ 0 < consumed_size then pages_count else 0)

/-- Observable outcome of one `transfer_max_buffers` call. -/
structure TransferOutcome where
  ret : Int
  consumed_size : Int
  status : Int
  put_page_count : Nat
  set_page_dirty_count : Nat
  deriving Repr, DecidableEq

/-- `transfer_max_buffers`: oracle inputs are the lock interruption, the
`get_user_pages_fast` result, and the host's `status` / `consumed_size` left
in the command buffer by the READ/WRITE command. -/
def transfer_max_buffers (interrupted : Bool) (gup_ret : Int)
    (host_status host_consumed : Int)
    (address last_page : Nat) (last_page_size : Nat)
    (is_write : Bool) : TransferOutcome :=
  if interrupted then
    { ret := - ERESTARTSYS, consumed_size := 0, status := 0,
      put_page_count := 0, set_page_dirty_count := 0 }
  else
    let first_page := address - address % PAGE_SIZE
    let pin := goldfish_pin_user_pages first_page last_page last_page_size gup_ret
    if pin.1 < 0 then
      { ret := pin.1, consumed_size := 0, status := 0,
        put_page_count := 0, set_page_dirty_count := 0 }
    else
      let rel := release_user_pages pin.1.toNat is_write host_consumed
      { ret := 0, consumed_size := host_consumed, status := host_status,
        put_page_count := rel.1, set_page_dirty_count := rel.2 }

/-! ## Descriptor building (`populate_rw_params`, C4)

Pages are represented by their physical addresses (`page_to_phys` of each
pinned page).  The C code mutates `sizes[buffer_idx]` in place to merge a
physically-consecutive page into the current descriptor; the recursion below
carries the descriptor under construction (`cur`) and emits it when a
non-consecutive page starts a new descriptor. -/

def populate_rw_params_go (xaddr_prev : Nat) (cur : Nat × Nat)
    (iter_last_page_size : Nat) : List Nat → List (Nat × Nat)
  | [] => [cur]
  | xaddr :: rest =>
    let size_on_page := if rest.isEmpty then iter_last_page_size else PAGE_SIZE
    if xaddr = xaddr_prev + PAGE_SIZE then
      populate_rw_params_go xaddr (cur.1, cur.2 + size_on_page)
        iter_last_page_size rest
    else
      cur :: populate_rw_params_go xaddr (xaddr, size_on_page)
        iter_last_page_size rest

/-- `populate_rw_params`: returns the list of `(ptrs[i], sizes[i])` descriptor
pairs written into the command buffer (`buffers_count` is its length). -/
def populate_rw_params (pages : List Nat)
    (address address_end first_page last_page : Nat)
    (iter_last_page_size : Nat) : List (Nat × Nat) :=
  match pages with
  | [] => []
  | xaddr0 :: rest =>
    let size_on_page :=
      if first_page = last_page then address_end - address
      else PAGE_SIZE - (address &&& (PAGE_SIZE - 1))
    populate_rw_params_go xaddr0
      (xaddr0 ||| (address &&& (PAGE_SIZE - 1)), size_on_page)
      iter_last_page_size rest

/-- Number of positions in `rest` (successor pages) whose physical address is
not exactly one page after its predecessor, i.e. the number of run boundaries
after the first page. -/
def page_run_breaks (xaddr_prev : Nat) : List Nat → Nat
  | [] => 0
  | xaddr :: rest =>
    (if xaddr = xaddr_prev + PAGE_SIZE then 0 else 1) + page_run_breaks xaddr rest

/-- The per-page byte contributions of the successor pages: `PAGE_SIZE` for
every page except the last, which contributes `iter_last_page_size`. -/
def tail_page_sizes (iter_last_page_size : Nat) : List Nat → Nat
  | [] => 0
  | _ :: rest =>
    (if rest.isEmpty then iter_last_page_size else PAGE_SIZE) +
      tail_page_sizes iter_last_page_size rest

/-! ## Signal pipeline: waiter side (`wait_for_host_signal`, C2 / C5) -/

/-- The value `wait_for_host_signal` returns once the waiter is woken:
`-ERESTARTSYS` if the interruptible wait was interrupted, `-EIO` if the
woken waiter observes the closed-on-host bit in the pipe's flags (now equal to
`flags_after`), else 0 (its wait bit was cleared). -/
def wait_for_host_signal_result (interrupted : Bool) (flags_after : Nat) : Int :=
  if interrupted then - ERESTARTSYS
  else if flags_after.testBit BIT_CLOSED_ON_HOST then - EIO
  else 0

/-! ## The read/write outer loop (`goldfish_pipe_read_write`, C1 / C5)

Each loop iteration calls `transfer_max_buffers` once; the oracle results it
observes (return value, `consumed_size`, `status`, and - if the iteration ends
up waiting - the wait outcome) are collected in one `TransferEvent` per
iteration.  The event list doubles as fuel: `none` means the supplied host
responses were exhausted with the loop still running. -/

structure TransferEvent where
  tr_ret : Int
  consumed_size : Int
  status : Int
  wait_inter : Bool
  wait_flags : Nat
  deriving Repr, DecidableEq

/-- `goldfish_pipe_error_convert`. -/
def goldfish_pipe_error_convert (status : Int) : Int :=
  if status = PIPE_ERROR_AGAIN then - EAGAIN
  else if status = PIPE_ERROR_NOMEM then - ENOMEM
  else if status = PIPE_ERROR_IO then - EIO
  else - EINVAL

/-- The final `count > 0 ? count : ret` selection of `goldfish_pipe_read_write`. -/
def rw_finish (count ret : Int) : Int :=
  if 0 < count then count else ret

/-- The `while (address < address_end)` loop of `goldfish_pipe_read_write`. -/
def rw_loop (nonblock : Bool) (address_end : Nat) :
    Nat → Int → Int → List TransferEvent → Option Int
  | address, count, ret, [] =>
    if address < address_end then none else some (rw_finish count ret)
  | address, count, ret, e :: rest =>
    if address < address_end then
      if e.tr_ret < 0 then some (rw_finish count e.tr_ret)
      else
        let count' := if 0 < e.consumed_size then count + e.consumed_size else count
        let address' :=
          if 0 < e.consumed_size then address + e.consumed_size.toNat else address
        if 0 < e.status then rw_loop nonblock address_end address' count' e.tr_ret rest
        else if e.status = 0 then some (rw_finish count' 0)
        else if 0 < count' then some (rw_finish count' e.tr_ret)
        else if e.status ≠ PIPE_ERROR_AGAIN ∨ nonblock then
          some (rw_finish count' (goldfish_pipe_error_convert e.status))
        else
          let w := wait_for_host_signal_result e.wait_inter e.wait_flags
          if w < 0 then some w
          else rw_loop nonblock address_end address count e.tr_ret rest
    else some (rw_finish count ret)

/-- `goldfish_pipe_read_write`: the entry checks (closed-on-host, zero length,
`access_ok`) followed by the transfer loop. -/
def goldfish_pipe_read_write (closed_on_host access_ok_res nonblock : Bool)
    (buffer bufflen : Nat) (events : List TransferEvent) : Option Int :=
  if closed_on_host then some (- EIO)
  else if bufflen = 0 then some 0
  else if access_ok_res = false then some (- EFAULT)
  else rw_loop nonblock (buffer + bufflen) buffer 0 (- EINVAL) events

/-! ## Signalled-pipe list (`signalled_pipes_add_locked` /
`signalled_pipes_pop_front` / `goldfish_interrupt_task`, C2 / C3)

The intrusive doubly-linked list is embedded with pipe ids in place of
pointers: a pipe's `prev_signalled` / `next_signalled` fields hold the id of
the neighbouring pipe or `none` for NULL.  The registry array is a function
from ids to optional pipes. -/

/-- The fields of `struct goldfish_pipe` relevant to the signal pipeline. -/
structure goldfish_pipe where
  flags : Nat
  signalled_flags : Nat
  prev_signalled : Option Nat
  next_signalled : Option Nat
  deriving Repr, DecidableEq

/-- The fields of `struct goldfish_pipe_dev` relevant to the signal pipeline. -/
structure goldfish_pipe_dev where
  pipes_capacity : Nat
  pipes : Nat → Option goldfish_pipe
  first_signalled_pipe : Option Nat

/-- Store `p` into registry slot `id`. -/
def setPipe (dev : goldfish_pipe_dev) (id : Nat) (p : Option goldfish_pipe) :
    goldfish_pipe_dev :=
  { dev with pipes := fun j => if j = id then p else dev.pipes j }

/-- `signalled_pipes_add_locked`: ORs `flags` into the pipe's
`signalled_flags` and inserts the pipe at the list head unless the membership
test (`prev_signalled || next_signalled || first_signalled_pipe == pipe`)
says it is already a member. -/
def signalled_pipes_add_locked (dev : goldfish_pipe_dev) (id : Nat)
    (flags : Nat) : goldfish_pipe_dev :=
  if dev.pipes_capacity ≤ id then dev
  else
    match dev.pipes id with
    | none => dev
    | some pipe =>
      let pipe1 : goldfish_pipe :=
        { pipe with signalled_flags := pipe.signalled_flags ||| flags }
      let dev1 := setPipe dev id (some pipe1)
      if pipe1.prev_signalled.isSome || pipe1.next_signalled.isSome ||
          (dev1.first_signalled_pipe = some id : Bool) then
        dev1
      else
        let pipe2 : goldfish_pipe :=
          { pipe1 with next_signalled := dev1.first_signalled_pipe }
        let dev2 := setPipe dev1 id (some pipe2)
        let dev3 :=
          match dev2.first_signalled_pipe with
          | none => dev2
          | some h =>
            match dev2.pipes h with
            | none => dev2
            | some hp => setPipe dev2 h (some { hp with prev_signalled := some id })
        { dev3 with first_signalled_pipe := some id }

/-- `signalled_pipes_pop_front`: detaches the list head, reads and clears its
`signalled_flags` (returned as the wake flags), and severs only the head
links - the popped node's `next_signalled` is cleared but its
`prev_signalled` was already NULL as the head. -/
def signalled_pipes_pop_front (dev : goldfish_pipe_dev) :
    goldfish_pipe_dev × Option (Nat × Nat) :=
  match dev.first_signalled_pipe with
  | none => (dev, none)
  | some id =>
    match dev.pipes id with
    | none => (dev, none)
    | some p =>
      let wakes := p.signalled_flags
      let dev1 := setPipe dev id (some { p with signalled_flags := 0 })
      let dev2 := { dev1 with first_signalled_pipe := p.next_signalled }
      let dev3 :=
        match p.next_signalled with
        | none => dev2
        | some nid =>
          match dev2.pipes nid with
          | none => dev2
          | some np => setPipe dev2 nid (some { np with prev_signalled := none })
      let dev4 :=
        match dev3.pipes id with
        | none => dev3
        | some q => setPipe dev3 id (some { q with next_signalled := none })
      (dev4, some (id, wakes))

/-- Clear bit `k` of `f` (`clear_bit`). -/
def clear_bit (k : Nat) (f : Nat) : Nat :=
  if f.testBit k then f - 2 ^ k else f

/-- The wake-flag update `goldfish_interrupt_task` applies to a popped pipe's
`flags` word: if the closed flag is signalled the whole word is replaced by
`1 << BIT_CLOSED_ON_HOST`; otherwise only the signalled read/write wait bits
are cleared. -/
def interrupt_task_update (wakes : Nat) (flags : Nat) : Nat :=
  if wakes &&& PIPE_WAKE_CLOSED ≠ 0 then 1 <<< BIT_CLOSED_ON_HOST
  else
    let f1 := if wakes &&& PIPE_WAKE_READ ≠ 0 then
                clear_bit BIT_WAKE_ON_READ flags else flags
    if wakes &&& PIPE_WAKE_WRITE ≠ 0 then
      clear_bit BIT_WAKE_ON_WRITE f1 else f1

/-- One iteration of the `goldfish_interrupt_task` loop: pop a signalled pipe
and apply the wake-flag update (the subsequent `wake_up_interruptible` wakes
the pipe's waiters).  Returns the id of the woken pipe, if any. -/
def goldfish_interrupt_task_step (dev : goldfish_pipe_dev) :
    goldfish_pipe_dev × Option Nat :=
  let pr := signalled_pipes_pop_front dev
  match pr.2 with
  | none => (pr.1, none)
  | some (id, wakes) =>
    match pr.1.pipes id with
    | none => (pr.1, some id)
    | some p =>
      (setPipe pr.1 id
        (some { p with flags := interrupt_task_update wakes p.flags }),
       some id)

/-! ## Executable traversal of the signalled list and its set invariant (C3) -/

/-- Walk the `next_signalled` chain starting at `cur`, with fuel. -/
def sigChain (dev : goldfish_pipe_dev) : Nat → Option Nat → List Nat
  | 0, _ => []
  | _, none => []
  | fuel + 1, some id =>
    id :: sigChain dev fuel ((dev.pipes id).bind goldfish_pipe.next_signalled)

/-- The contents of the signalled-pipe list, head first. -/
def sigList (dev : goldfish_pipe_dev) : List Nat :=
  sigChain dev dev.pipes_capacity dev.first_signalled_pipe

/-- `chainRep dev pr cur L`: starting at pointer `cur` whose backward pointer
ought to be `pr`, the `next_signalled` chain visits exactly the ids in `L`,
with consistent `prev_signalled` back-links and all ids within capacity. -/
def chainRep (dev : goldfish_pipe_dev) : Option Nat → Option Nat → List Nat → Prop
  | _, cur, [] => cur = none
  | pr, cur, id :: rest =>
    cur = some id ∧ id < dev.pipes_capacity ∧
      ∃ p, dev.pipes id = some p ∧ p.prev_signalled = pr ∧
        chainRep dev (some id) p.next_signalled rest

/-- The signalled-list representation invariant: the chain from the head is
exactly `L`, `L` has no duplicates, and every allocated pipe outside the list
has NULL `prev_signalled` and `next_signalled` (so the membership test in
`signalled_pipes_add_locked` is exact). -/
def represents (dev : goldfish_pipe_dev) (L : List Nat) : Prop :=
  chainRep dev none dev.first_signalled_pipe L ∧ L.Nodup ∧
    ∀ id, id ∉ L → ∀ p, dev.pipes id = some p →
      p.prev_signalled = none ∧ p.next_signalled = none

/-- Well-formedness of the device's signalled list. -/
def WFdev (dev : goldfish_pipe_dev) : Prop :=
  ∃ L, represents dev L

/-- One operation on the signalled list: an interrupt-handler insertion or a
deferred-task pop. -/
inductive SigOp where
  | add (id : Nat) (flags : Nat)
  | pop
  deriving Repr, DecidableEq

def applySigOp (dev : goldfish_pipe_dev) : SigOp → goldfish_pipe_dev
  | SigOp.add id flags => signalled_pipes_add_locked dev id flags
  | SigOp.pop => (signalled_pipes_pop_front dev).1

def applySigOps (dev : goldfish_pipe_dev) (ops : List SigOp) : goldfish_pipe_dev :=
  ops.foldl applySigOp dev

/-- A concrete two-pipe device whose signalled list is `[0, 1]`. -/
def exampleDev : goldfish_pipe_dev where
  pipes_capacity := 2
  pipes := fun j =>
    if j = 0 then
      some { flags := 0, signalled_flags := PIPE_WAKE_READ,
             prev_signalled := none, next_signalled := some 1 }
    else if j = 1 then
      some { flags := 0, signalled_flags := PIPE_WAKE_WRITE,
             prev_signalled := some 0, next_signalled := none }
    else none
  first_signalled_pipe := some 0

/-- A concrete one-pipe device whose signalled pipe 0 has both the closed and
the read wake flags pending while its owner waits on read. -/
def closedDev : goldfish_pipe_dev where
  pipes_capacity := 1
  pipes := fun j =>
    if j = 0 then
      some { flags := 1 <<< BIT_WAKE_ON_READ,
             signalled_flags := PIPE_WAKE_CLOSED ||| PIPE_WAKE_READ,
             prev_signalled := none, next_signalled := none }
    else none
  first_signalled_pipe := some 0

/-! ## Pipe open (`goldfish_pipe_open` / `get_free_pipe_id_locked`, C10)

The registry is a list of slots indexed by pipe id (`none` = empty slot); a
live pipe object is abstracted to a tag.  Allocation outcomes (`kzalloc` of
the pipe, `__get_free_page` for the command buffer, `kcalloc` for registry
growth) and the host OPEN status are oracle inputs.  The result records the
final registry, the return value, and which of the two owned allocations were
made and freed. -/

/-- The linear scan of `get_free_pipe_id_locked`: index of the first empty
registry slot. -/
def find_free_id : List (Option Nat) → Option Nat
  | [] => none
  | none :: _ => some 0
  | some _ :: rest => (find_free_id rest).map (· + 1)

/-- `get_free_pipe_id_locked`: first free slot, or double the capacity (new
slots empty) and return the first new slot; registry growth can fail with
`-ENOMEM`. -/
def get_free_pipe_id_locked (kcalloc_ok : Bool) (pipes : List (Option Nat)) :
    List (Option Nat) × Int :=
  match find_free_id pipes with
  | some id => (pipes, (id : Int))
  | none =>
    if kcalloc_ok then
      (pipes ++ List.replicate pipes.length none, (pipes.length : Int))
    else (pipes, - ENOMEM)

/-- Observable outcome of `goldfish_pipe_open`. -/
structure OpenResult where
  registry : List (Option Nat)
  ret : Int
  pipe_allocated : Bool
  pipe_freed : Bool
  cmdbuf_allocated : Bool
  cmdbuf_freed : Bool
  deriving Repr, DecidableEq

/-- `goldfish_pipe_open`, with its error unwinding (`err_cmd`,
`err_id_locked`, `err_pipe` labels in the C source). -/
def goldfish_pipe_open (pipe_alloc_ok cmdbuf_alloc_ok kcalloc_ok : Bool)
    (open_status : Int) (tag : Nat) (pipes : List (Option Nat)) : OpenResult :=
  if pipe_alloc_ok = false then
    { registry := pipes, ret := - ENOMEM,
      pipe_allocated := false, pipe_freed := false,
      cmdbuf_allocated := false, cmdbuf_freed := false }
  else if cmdbuf_alloc_ok = false then
    { registry := pipes, ret := - ENOMEM,
      pipe_allocated := true, pipe_freed := true,
      cmdbuf_allocated := false, cmdbuf_freed := false }
  else
    let grown := get_free_pipe_id_locked kcalloc_ok pipes
    if grown.2 < 0 then
      { registry := grown.1, ret := grown.2,
        pipe_allocated := true, pipe_freed := true,
        cmdbuf_allocated := true, cmdbuf_freed := true }
    else
      let id := grown.2.toNat
      let pipes2 := grown.1.set id (some tag)
      if open_status < 0 then
        { registry := pipes2.set id none, ret := open_status,
          pipe_allocated := true, pipe_freed := true,
          cmdbuf_allocated := true, cmdbuf_freed := true }
      else
        { registry := pipes2, ret := 0,
          pipe_allocated := true, pipe_freed := false,
          cmdbuf_allocated := true, cmdbuf_freed := false }

/-! ## Helper lemmas -/

lemma pin_pos (fp lp ls : Nat) (g : Int) (h : 0 < g) :
    (goldfish_pin_user_pages fp lp ls g).1 = g := by
  simp only [goldfish_pin_user_pages]
  split_ifs <;> first | rfl | omega

lemma pin_fail (fp lp ls : Nat) (g : Int) (h : g ≤ 0) :
    (goldfish_pin_user_pages fp lp ls g).1 = - EFAULT := by
  simp only [goldfish_pin_user_pages]
  split_ifs <;> first | rfl | omega

/-! ## Theorems for the claims -/

/-- C6: a command issued through `goldfish_pipe_cmd` with an interrupted lock
acquisition fails with the interrupted result ( `PIPE_ERROR_IO`) and does not
execute the command (the command buffer and the doorbell log are untouched);
otherwise the command code is written to the buffer, `status` is preset to the
generic-failure sentinel ` PIPE_ERROR_INVAL` before the host processes the
buffer, exactly one doorbell write of the pipe id occurs, and the returned
value is the status the host left in the buffer. -/
theorem C6_cmd_channel (host : goldfish_pipe_command → goldfish_pipe_command)
    (pipe_id : Int) (st : CmdChannelState) (cmd : Int) :
    goldfish_pipe_cmd true host pipe_id st cmd = (st, PIPE_ERROR_IO) ∧
    (goldfish_pipe_cmd false host pipe_id st cmd).1.doorbell_writes =
      st.doorbell_writes ++ [pipe_id] ∧
    (goldfish_pipe_cmd false host pipe_id st cmd).1.command_buffer =
      host { cmd := cmd, id := st.command_buffer.id, status := PIPE_ERROR_INVAL } ∧
    (goldfish_pipe_cmd false host pipe_id st cmd).2 =
      (host { cmd := cmd, id := st.command_buffer.id,
              status := PIPE_ERROR_INVAL }).status :=
  ⟨rfl, rfl, rfl, rfl⟩

/-- C7: region creation on a pipe that already owns a region fails with
resource-busy and leaves the state (including the owned region) unchanged;
a size below one page, above 256 MiB, or not page-aligned fails validation and
the ioctl rejects it with invalid-argument before any state change or host
interaction; exactly 256 MiB passes validation. -/
theorem C7_dma_create_region (st st2 : DmaPipeState) (ctx : goldfish_dma_context)
    (size size2 : Nat) (kz intr : Bool)
    (h1 : st.dma = some ctx)
    (h2 : size < DMA_REGION_MIN_SIZE ∨ DMA_REGION_MAX_SIZE < size ∨
      is_page_size_multiple size = false) :
    goldfish_pipe_dma_create_region true false st size2 = (st, - EBUSY) ∧
    check_region_size_valid size = false ∧
    goldfish_dma_ioctl_create_region true kz intr st2 size = (st2, - EINVAL) ∧
    check_region_size_valid DMA_REGION_MAX_SIZE = true := by
  have hv : check_region_size_valid size = false := by
    unfold check_region_size_valid
    rcases h2 with h | h | h <;> split_ifs <;> simp_all <;> omega
  refine ⟨?_, hv, ?_, ?_⟩
  · simp [goldfish_pipe_dma_create_region, h1]
  · simp [goldfish_dma_ioctl_create_region, hv]
  · decide

/-- C7 witness. -/
theorem C7_dma_create_region_witness :
    (let st : DmaPipeState :=
      { dma := some { dma_vaddr := none, dma_size := 4096,
                      phys_begin := 0, phys_end := 0 },
        dma_alloc_total := 0, alloc_count := 0, host_map_cmds := [] }
     goldfish_pipe_dma_create_region true false st 4096 = (st, - EBUSY)) ∧
    check_region_size_valid 4095 = false := by
  have h := C7_dma_create_region
    { dma := some { dma_vaddr := none, dma_size := 4096,
                    phys_begin := 0, phys_end := 0 },
      dma_alloc_total := 0, alloc_count := 0, host_map_cmds := [] }
    { dma := none, dma_alloc_total := 0, alloc_count := 0, host_map_cmds := [] }
    { dma_vaddr := none, dma_size := 4096, phys_begin := 0, phys_end := 0 }
    4095 4096 true false rfl (Or.inl (by decide))
  exact ⟨h.1, h.2.1⟩

/-- C8: on a pipe with a created but not yet materialized region, the DMA
ensure-mapped operation succeeds, performs exactly one backing allocation and
issues exactly one host map command (carrying the physical base and the
region size), and a second call returns success with no further side
effects whatsoever. -/
theorem C8_dma_alloc_idempotent (st : DmaPipeState) (ctx : goldfish_dma_context)
    (va pa : Nat) (alloc2 : Option (Nat × Nat))
    (h1 : st.dma = some ctx) (h2 : ctx.dma_vaddr = none) :
    (goldfish_pipe_dma_alloc_locked (some (va, pa)) st).2 = 0 ∧
    (goldfish_pipe_dma_alloc_locked (some (va, pa)) st).1.alloc_count =
      st.alloc_count + 1 ∧
    (goldfish_pipe_dma_alloc_locked (some (va, pa)) st).1.host_map_cmds =
      st.host_map_cmds ++ [(pa, ctx.dma_size)] ∧
    goldfish_pipe_dma_alloc_locked alloc2
        (goldfish_pipe_dma_alloc_locked (some (va, pa)) st).1 =
      ((goldfish_pipe_dma_alloc_locked (some (va, pa)) st).1, 0) := by
  simp [goldfish_pipe_dma_alloc_locked, h1, h2]

/-- C8 witness. -/
theorem C8_dma_alloc_idempotent_witness :
    (let st : DmaPipeState :=
      { dma := some { dma_vaddr := none, dma_size := 8192,
                      phys_begin := 0, phys_end := 0 },
        dma_alloc_total := 0, alloc_count := 0, host_map_cmds := [] }
     (goldfish_pipe_dma_alloc_locked (some (7, 12288)) st).1.alloc_count = 1 ∧
     (goldfish_pipe_dma_alloc_locked (some (7, 12288)) st).1.host_map_cmds =
       [(12288, 8192)] ∧
     goldfish_pipe_dma_alloc_locked none
         (goldfish_pipe_dma_alloc_locked (some (7, 12288)) st).1 =
       ((goldfish_pipe_dma_alloc_locked (some (7, 12288)) st).1, 0)) := by
  have h := C8_dma_alloc_idempotent
    { dma := some { dma_vaddr := none, dma_size := 8192,
                    phys_begin := 0, phys_end := 0 },
      dma_alloc_total := 0, alloc_count := 0, host_map_cmds := [] }
    { dma_vaddr := none, dma_size := 8192, phys_begin := 0, phys_end := 0 }
    7 12288 none rfl rfl
  exact ⟨h.2.1, h.2.2.1, h.2.2.2⟩

/-- C9 counterexample: a read (`is_write = false`) that pins one page while
the host consumes 0 bytes releases the page (one `put_page`) but does not mark
it dirty, contradicting the claim that for reads the pinned pages are marked
dirty on every exit path regardless of the command's outcome. -/
theorem C9_counterexample :
    (transfer_max_buffers false 1 0 0 0 0 4096 false).put_page_count = 1 ∧
    (transfer_max_buffers false 1 0 0 0 0 4096 false).set_page_dirty_count = 0 := by
  decide

/-- C9 (amended): whenever pages are successfully pinned, every pinned page is
released exactly once regardless of the command's `status` / `consumed_size`
outcome, and for reads the pages are marked dirty exactly when the consumed
size is positive; on the exits taken before pinning (interrupted lock, pin
failure) no page is pinned and none released. -/
theorem C9_release_pages (gup_ret host_status host_consumed : Int)
    (address last_page last_page_size : Nat) (is_write : Bool)
    (g2 s2 c2 : Int) (a2 l2 ls2 : Nat) (w2 : Bool)
    (g3 s3 c3 : Int) (a3 l3 ls3 : Nat) (w3 : Bool)
    (hg : 0 < gup_ret) (hg3 : g3 ≤ 0) :
    (transfer_max_buffers false gup_ret host_status host_consumed
        address last_page last_page_size is_write).ret = 0 ∧
    (transfer_max_buffers false gup_ret host_status host_consumed
        address last_page last_page_size is_write).put_page_count =
      gup_ret.toNat ∧
    (transfer_max_buffers false gup_ret host_status host_consumed
        address last_page last_page_size is_write).set_page_dirty_count =
      (if is_write = false ∧ 0 < host_consumed then gup_ret.toNat else 0) ∧
    (transfer_max_buffers true g2 s2 c2 a2 l2 ls2 w2).put_page_count = 0 ∧
    (transfer_max_buffers false g3 s3 c3 a3 l3 ls3 w3).put_page_count = 0 ∧
    (transfer_max_buffers false g3 s3 c3 a3 l3 ls3 w3).ret = - EFAULT := by
  simp only [transfer_max_buffers, pin_pos _ _ _ _ hg, pin_fail _ _ _ _ hg3,
    release_user_pages]
  have h1 : ¬ gup_ret < 0 := by omega
  have h2 : - EFAULT < 0 := by simp [EFAULT]
  simp [h1, h2]

/-- C9 witness. -/
theorem C9_release_pages_witness :
    (transfer_max_buffers false 3 (-2) 5 0 8192 4096 false).put_page_count = 3 ∧
    (transfer_max_buffers false 3 (-2) 5 0 8192 4096 false).set_page_dirty_count = 3 ∧
    (transfer_max_buffers false (-1) 0 0 0 0 4096 false).ret = - EFAULT := by
  have h := C9_release_pages 3 (-2) 5 0 8192 4096 false
    0 0 0 0 0 0 false (-1) 0 0 0 0 4096 false (by decide) (by decide)
  exact ⟨by simpa using h.2.1, by simpa using h.2.2.1, h.2.2.2.2.2⟩

/-- C1: in every loop iteration of a read/write call, a positive
`consumed_size` is added to the running total and advances the address cursor
by that amount regardless of the command's `status` (on a positive status the
loop continues with the updated cursor and total; on end-of-stream or any
error status the call returns the now-positive total); in particular a write
of 10 bytes where the host consumes all 10 and returns status 0 returns 10. -/
theorem C1_rw_accounting (nb : Bool) (address_end address : Nat)
    (count ret tr cs stt : Int) (wi : Bool) (wf : Nat)
    (rest : List TransferEvent)
    (h1 : address < address_end) (h2 : 0 ≤ tr) (h3 : 0 < cs) (h4 : 0 ≤ count) :
    (rw_loop nb address_end address count ret
        (({ tr_ret := tr, consumed_size := cs, status := stt,
            wait_inter := wi, wait_flags := wf } : TransferEvent) :: rest) =
      if 0 < stt then
        rw_loop nb address_end (address + cs.toNat) (count + cs) tr rest
      else some (count + cs)) ∧
    goldfish_pipe_read_write false true false 0 10
      [{ tr_ret := 0, consumed_size := 10, status := 0,
         wait_inter := false, wait_flags := 0 }] = some 10 := by
  constructor
  · have hnr : ¬ tr < 0 := by omega
    have hcount : 0 < count + cs := by omega
    by_cases hs : 0 < stt
    · simp [rw_loop, h1, hnr, h3, hs]
    · have hs0 : stt = 0 ∨ stt < 0 := by omega
      rcases hs0 with hs0 | hs0
      · simp [rw_loop, h1, hnr, h3, hs0, rw_finish, hcount]
      · have : ¬ stt = 0 := by omega
        simp [rw_loop, h1, hnr, h3, hs, this, hcount, rw_finish]
  · decide

/-- C1 witness. -/
theorem C1_rw_accounting_witness :
    rw_loop false 10 0 0 0
        [{ tr_ret := 0, consumed_size := 10, status := 0,
           wait_inter := false, wait_flags := 0 }] = some 10 ∧
    goldfish_pipe_read_write false true false 0 10
      [{ tr_ret := 0, consumed_size := 10, status := 0,
         wait_inter := false, wait_flags := 0 }] = some 10 := by
  have h := C1_rw_accounting false 10 0 0 0 0 10 0 false 0 []
    (by decide) (by decide) (by decide) (by decide)
  exact ⟨by simpa using h.1, h.2⟩

/-- C5: an iteration that gets the would-block status with nothing consumed
and nothing transferred so far returns the would-block error `-EAGAIN`
immediately in non-blocking mode, whatever the wait oracle would have said
(no wait is consulted); in blocking mode it waits for the host signal and,
once woken without interruption or closure, retries the iteration with the
same cursor and total. -/
theorem C5_would_block (address_end address : Nat) (ret tr cs : Int)
    (rest : List TransferEvent) (wi wi2 : Bool) (wf wf2 : Nat)
    (h1 : address < address_end) (h2 : 0 ≤ tr) (h3 : cs ≤ 0)
    (h4 : wi = false) (h5 : wf.testBit BIT_CLOSED_ON_HOST = false) :
    rw_loop true address_end address 0 ret
        (({ tr_ret := tr, consumed_size := cs, status := PIPE_ERROR_AGAIN,
            wait_inter := wi2, wait_flags := wf2 } : TransferEvent) :: rest) =
      some (- EAGAIN) ∧
    rw_loop false address_end address 0 ret
        (({ tr_ret := tr, consumed_size := cs, status := PIPE_ERROR_AGAIN,
            wait_inter := wi, wait_flags := wf } : TransferEvent) :: rest) =
      rw_loop false address_end address 0 tr rest := by
  have hnr : ¬ tr < 0 := by omega
  have hcs : ¬ 0 < cs := by omega
  constructor
  · simp [rw_loop, h1, hnr, hcs, PIPE_ERROR_AGAIN, goldfish_pipe_error_convert,
      rw_finish]
  · simp [rw_loop, h1, hnr, hcs, PIPE_ERROR_AGAIN, h4, h5,
      wait_for_host_signal_result, ERESTARTSYS, EIO]

/-- C5 witness. -/
theorem C5_would_block_witness :
    rw_loop true 4096 0 0 0
        [{ tr_ret := 0, consumed_size := 0, status := PIPE_ERROR_AGAIN,
           wait_inter := true, wait_flags := 1 }] = some (- EAGAIN) ∧
    rw_loop false 4096 0 0 0
        [{ tr_ret := 0, consumed_size := 0, status := PIPE_ERROR_AGAIN,
           wait_inter := false, wait_flags := 0 }] =
      rw_loop false 4096 0 0 0 [] := by
  exact C5_would_block 4096 0 0 0 0 [] false true 0 1
    (by decide) (by decide) (by decide) rfl (by decide)

lemma page_mask_eq_mod (n : Nat) : n &&& (PAGE_SIZE - 1) = n % PAGE_SIZE := by
  simp only [PAGE_SIZE]
  rw [Nat.and_pow_two_sub_one_eq_mod]

lemma go_map_snd_sum (prev : Nat) (cur : Nat × Nat) (ilps : Nat) (l : List Nat) :
    ((populate_rw_params_go prev cur ilps l).map Prod.snd).sum =
      cur.2 + tail_page_sizes ilps l := by
  induction l generalizing prev cur with
  | nil => simp [populate_rw_params_go, tail_page_sizes]
  | cons x rest ih =>
    simp only [populate_rw_params_go, tail_page_sizes]
    split_ifs with h <;> simp [ih, Nat.add_assoc]

lemma go_length (prev : Nat) (cur : Nat × Nat) (ilps : Nat) (l : List Nat) :
    (populate_rw_params_go prev cur ilps l).length = 1 + page_run_breaks prev l := by
  induction l generalizing prev cur with
  | nil => simp [populate_rw_params_go, page_run_breaks]
  | cons x rest ih =>
    simp only [populate_rw_params_go, page_run_breaks]
    split_ifs with h <;> simp [ih] <;> omega

lemma page_run_breaks_le (prev : Nat) (l : List Nat) :
    page_run_breaks prev l ≤ l.length := by
  induction l generalizing prev with
  | nil => simp [page_run_breaks]
  | cons x rest ih =>
    simp only [page_run_breaks, List.length_cons]
    have := ih x
    split_ifs <;> omega

lemma go_head_fst (prev : Nat) (cur : Nat × Nat) (ilps : Nat) (l : List Nat) :
    ((populate_rw_params_go prev cur ilps l).head?).map Prod.fst = some cur.1 := by
  induction l generalizing prev cur with
  | nil => simp [populate_rw_params_go]
  | cons x rest ih =>
    simp only [populate_rw_params_go]
    split_ifs with h <;> simp [ih]

lemma tail_page_sizes_formula (ilps : Nat) (l : List Nat) (h : l ≠ []) :
    tail_page_sizes ilps l = (l.length - 1) * PAGE_SIZE + ilps := by
  induction l with
  | nil => exact absurd rfl h
  | cons x rest ih =>
    cases rest with
    | nil => simp [tail_page_sizes]
    | cons y t =>
      rw [tail_page_sizes, ih (by simp)]
      have hp : PAGE_SIZE = 4096 := by norm_num [PAGE_SIZE, PAGE_SHIFT]
      simp [hp]
      omega

/-- C4: the descriptor-building step emits one descriptor per maximal run of
physically-consecutive pinned pages: the descriptor count is one more than the
number of run boundaries (hence at most the page count), the descriptor sizes
sum to the per-page contributions (first page's partial size, `PAGE_SIZE` for
the middle pages, `iter_last_page_size` for the last), the first descriptor's
pointer carries the user address's in-page offset, and - for the page
geometry the caller establishes - that size total equals the chunk's byte
length `address_end - address`. -/
theorem C4_populate_rw_params (x0 : Nat) (rest : List Nat)
    (address address_end first_page last_page iter_last_page_size : Nat)
    (hfp : first_page = address - address % PAGE_SIZE)
    (hlp : last_page = (address_end - 1) - (address_end - 1) % PAGE_SIZE)
    (hlen : rest.length * PAGE_SIZE = last_page - first_page)
    (hilps : iter_last_page_size = (address_end - 1) % PAGE_SIZE + 1)
    (haa : address < address_end) :
    ((populate_rw_params (x0 :: rest) address address_end first_page last_page
        iter_last_page_size).map Prod.snd).sum =
      (if first_page = last_page then address_end - address
       else PAGE_SIZE - (address &&& (PAGE_SIZE - 1))) +
        tail_page_sizes iter_last_page_size rest ∧
    (populate_rw_params (x0 :: rest) address address_end first_page last_page
        iter_last_page_size).length = 1 + page_run_breaks x0 rest ∧
    (populate_rw_params (x0 :: rest) address address_end first_page last_page
        iter_last_page_size).length ≤ (x0 :: rest).length ∧
    ((populate_rw_params (x0 :: rest) address address_end first_page last_page
        iter_last_page_size).head?).map Prod.fst =
      some (x0 ||| (address &&& (PAGE_SIZE - 1))) ∧
    ((populate_rw_params (x0 :: rest) address address_end first_page last_page
        iter_last_page_size).map Prod.snd).sum = address_end - address := by
  have hsum := go_map_snd_sum x0
    (x0 ||| (address &&& (PAGE_SIZE - 1)),
     if first_page = last_page then address_end - address
     else PAGE_SIZE - (address &&& (PAGE_SIZE - 1)))
    iter_last_page_size rest
  have hlnn := go_length x0
    (x0 ||| (address &&& (PAGE_SIZE - 1)),
     if first_page = last_page then address_end - address
     else PAGE_SIZE - (address &&& (PAGE_SIZE - 1)))
    iter_last_page_size rest
  have hhd := go_head_fst x0
    (x0 ||| (address &&& (PAGE_SIZE - 1)),
     if first_page = last_page then address_end - address
     else PAGE_SIZE - (address &&& (PAGE_SIZE - 1)))
    iter_last_page_size rest
  refine ⟨?_, ?_, ?_, ?_, ?_⟩
  · simpa [populate_rw_params] using hsum
  · simpa [populate_rw_params] using hlnn
  · have := page_run_breaks_le x0 rest
    simp only [populate_rw_params]
    rw [hlnn]
    simp only [List.length_cons]
    omega
  · simpa [populate_rw_params] using hhd
  · have hmask : address &&& (PAGE_SIZE - 1) = address % PAGE_SIZE :=
      page_mask_eq_mod address
    have hp : PAGE_SIZE = 4096 := by norm_num [PAGE_SIZE, PAGE_SHIFT]
    simp only [populate_rw_params]
    rw [hsum, hmask]
    cases rest with
    | nil =>
      have hfl : first_page = last_page := by
        subst hfp hlp
        simp only [List.length_nil, Nat.zero_mul] at hlen
        rw [hp] at *
        omega
      simp [tail_page_sizes, hfl]
    | cons y t =>
      simp only [List.length_cons] at hlen
      have hfl : first_page ≠ last_page := by
        subst hfp hlp
        rw [hp] at *
        intro he
        omega
      rw [if_neg hfl]
      rw [tail_page_sizes_formula iter_last_page_size (y :: t) (by simp)]
      simp only [List.length_cons]
      subst hfp hlp hilps
      rw [hp] at *
      omega

/-- C4 witness. -/
theorem C4_populate_rw_params_witness :
    ((populate_rw_params [0, 4096, 8192] 100 9000 0 8192 808).map
      Prod.snd).sum = 8900 ∧
    (populate_rw_params [0, 4096, 8192] 100 9000 0 8192 808).length = 1 := by
  have h := C4_populate_rw_params 0 [4096, 8192] 100 9000 0 8192 808
    (by decide) (by decide) (by decide) (by decide) (by decide)
  constructor
  · rw [h.2.2.2.2]
  · rw [h.2.1]
    decide

lemma pop_front_spec (dev : goldfish_pipe_dev) (id : Nat) (p : goldfish_pipe)
    (h1 : dev.first_signalled_pipe = some id) (h2 : dev.pipes id = some p) :
    (signalled_pipes_pop_front dev).2 = some (id, p.signalled_flags) ∧
    ∃ q, (signalled_pipes_pop_front dev).1.pipes id = some q ∧
      q.flags = p.flags := by
  simp only [signalled_pipes_pop_front, h1, h2]
  cases hn : p.next_signalled with
  | none =>
    refine ⟨trivial, ?_⟩
    simp [setPipe]
  | some nid =>
    by_cases hnid : nid = id
    · subst hnid
      refine ⟨trivial, ?_⟩
      simp [setPipe]
    · refine ⟨trivial, ?_⟩
      cases hnp : dev.pipes nid with
      | none => simp [setPipe, hnid, hnp, Ne.symm hnid]
      | some np => simp [setPipe, hnid, hnp, Ne.symm hnid]

/-- C2: when the deferred task pops a signalled pipe whose signalled flags
include the closed flag, it replaces the pipe's entire wait-flag word with
only the closed-on-host bit - clearing any pending read/write wait bits, even
if read/write wake flags arrived in the same batch - and a waiter woken with
the closed-on-host bit set returns the I/O error. -/
theorem C2_closed_precedence (dev : goldfish_pipe_dev) (id : Nat)
    (p : goldfish_pipe)
    (h1 : dev.first_signalled_pipe = some id)
    (h2 : dev.pipes id = some p)
    (h3 : p.signalled_flags &&& PIPE_WAKE_CLOSED ≠ 0) :
    (goldfish_interrupt_task_step dev).2 = some id ∧
    ((goldfish_interrupt_task_step dev).1.pipes id).map goldfish_pipe.flags =
      some (1 <<< BIT_CLOSED_ON_HOST) ∧
    Nat.testBit (1 <<< BIT_CLOSED_ON_HOST) BIT_WAKE_ON_READ = false ∧
    Nat.testBit (1 <<< BIT_CLOSED_ON_HOST) BIT_WAKE_ON_WRITE = false ∧
    Nat.testBit (1 <<< BIT_CLOSED_ON_HOST) BIT_CLOSED_ON_HOST = true ∧
    wait_for_host_signal_result false (1 <<< BIT_CLOSED_ON_HOST) = - EIO := by
  obtain ⟨hpop, q, hq, hfl⟩ := pop_front_spec dev id p h1 h2
  simp only [goldfish_interrupt_task_step, hpop, hq]
  refine ⟨trivial, ?_, by decide, by decide, by decide, by decide⟩
  simp [setPipe, interrupt_task_update, h3]

/-- C2 witness. -/
theorem C2_closed_precedence_witness :
    ((goldfish_interrupt_task_step closedDev).1.pipes 0).map goldfish_pipe.flags =
      some (1 <<< BIT_CLOSED_ON_HOST) ∧
    wait_for_host_signal_result false (1 <<< BIT_CLOSED_ON_HOST) = - EIO := by
  have h := C2_closed_precedence closedDev 0
    { flags := 1 <<< BIT_WAKE_ON_READ,
      signalled_flags := PIPE_WAKE_CLOSED ||| PIPE_WAKE_READ,
      prev_signalled := none, next_signalled := none }
    rfl rfl (by decide)
  exact ⟨h.2.1, h.2.2.2.2.2⟩

lemma find_free_id_spec (l : List (Option Nat)) (i : Nat)
    (h : find_free_id l = some i) : l[i]? = some none := by
  induction l generalizing i with
  | nil => simp [find_free_id] at h
  | cons x rest ih =>
    cases x with
    | none =>
      simp only [find_free_id, Option.some.injEq] at h
      subst h
      simp
    | some t =>
      simp only [find_free_id, Option.map_eq_some'] at h
      obtain ⟨j, hj, rfl⟩ := h
      simpa using ih j hj

lemma set_none_eq_self (l : List (Option Nat)) (i : Nat)
    (h : l[i]? = some none) : l.set i none = l := by
  induction l generalizing i with
  | nil => rfl
  | cons x rest ih =>
    cases i with
    | zero =>
      have hx : x = none := by simpa using h
      simp [List.set, hx]
    | succ j =>
      simp only [List.set]
      rw [ih j (by simpa using h)]

lemma append_replicate_get (pipes : List (Option Nat)) (h : pipes ≠ []) :
    (pipes ++ List.replicate pipes.length none)[pipes.length]? = some none := by
  rw [List.getElem?_append_right (le_refl _)]
  cases pipes with
  | nil => exact absurd rfl h
  | cons x rest => simp [List.replicate]

/-- C10: if any step of opening a pipe fails (pipe allocation, command-buffer
allocation, free-id allocation including registry growth, or a negative host
OPEN status), open returns the corresponding error, every registry slot a new
pipe could have occupied is empty again (the registry is as before, except
that a growth that already happened persists with all new slots empty), and
the pipe object and command buffer are freed exactly when they were
allocated, so no partially-opened pipe remains reachable. -/
theorem C10_open_atomic (pa ca ka : Bool) (open_status : Int) (tag : Nat)
    (pipes : List (Option Nat))
    (h : (goldfish_pipe_open pa ca ka open_status tag pipes).ret < 0) :
    ((goldfish_pipe_open pa ca ka open_status tag pipes).registry = pipes ∨
      (goldfish_pipe_open pa ca ka open_status tag pipes).registry =
        pipes ++ List.replicate pipes.length none) ∧
    (goldfish_pipe_open pa ca ka open_status tag pipes).pipe_freed =
      (goldfish_pipe_open pa ca ka open_status tag pipes).pipe_allocated ∧
    (goldfish_pipe_open pa ca ka open_status tag pipes).cmdbuf_freed =
      (goldfish_pipe_open pa ca ka open_status tag pipes).cmdbuf_allocated ∧
    ((goldfish_pipe_open pa ca ka open_status tag pipes).ret = - ENOMEM ∨
      (goldfish_pipe_open pa ca ka open_status tag pipes).ret = open_status) := by
  by_cases hpa : pa = false
  · simp [goldfish_pipe_open, hpa]
  · by_cases hca : ca = false
    · simp [goldfish_pipe_open, hpa, hca]
    · simp only [goldfish_pipe_open, hpa, hca, if_false] at h ⊢
      cases hff : find_free_id pipes with
      | some i =>
        have hreg : pipes.set i none = pipes :=
          set_none_eq_self pipes i (find_free_id_spec pipes i hff)
        simp only [get_free_pipe_id_locked, hff] at h ⊢
        have hge : ¬ ((i : Int) < 0) := by omega
        simp only [hge, if_false] at h ⊢
        by_cases hos : open_status < 0
        · simp only [hos, if_true] at h ⊢
          refine ⟨Or.inl ?_, rfl, rfl, Or.inr rfl⟩
          rw [List.set_set]
          simpa using hreg
        · simp [hos] at h
      | none =>
        simp only [get_free_pipe_id_locked, hff] at h ⊢
        by_cases hka : ka = true
        · simp only [hka, if_true] at h ⊢
          have hge : ¬ ((pipes.length : Int) < 0) := by omega
          simp only [hge, if_false] at h ⊢
          by_cases hos : open_status < 0
          · simp only [hos, if_true] at h ⊢
            refine ⟨Or.inr ?_, rfl, rfl, Or.inr rfl⟩
            rw [List.set_set]
            cases hp : pipes with
            | nil => simp
            | cons x rest =>
              have := append_replicate_get pipes (by simp [hp])
              rw [← hp]
              simpa using set_none_eq_self _ _ this
          · simp [hos] at h
        · simp only [eq_false_of_ne_true hka, if_false] at h ⊢
          have : - ENOMEM < 0 := by norm_num [ENOMEM]
          simp [this]

/-- C10 witness. -/
theorem C10_open_atomic_witness :
    ((goldfish_pipe_open true true true (-1) 7 [some 3]).registry = [some 3] ∨
      (goldfish_pipe_open true true true (-1) 7 [some 3]).registry =
        [some 3] ++ List.replicate [some 3].length none) ∧
    (goldfish_pipe_open true true true (-1) 7 [some 3]).pipe_freed =
      (goldfish_pipe_open true true true (-1) 7 [some 3]).pipe_allocated ∧
    (goldfish_pipe_open true true true (-1) 7 [some 3]).cmdbuf_freed =
      (goldfish_pipe_open true true true (-1) 7 [some 3]).cmdbuf_allocated ∧
    ((goldfish_pipe_open true true true (-1) 7 [some 3]).ret = - ENOMEM ∨
      (goldfish_pipe_open true true true (-1) 7 [some 3]).ret = -1) :=
  C10_open_atomic true true true (-1) 7 [some 3] (by decide)

lemma chainRep_links_congr {dev dev2 : goldfish_pipe_dev} {pr cur : Option Nat}
    {L : List Nat}
    (hcap : dev2.pipes_capacity = dev.pipes_capacity)
    (hp : ∀ j ∈ L, dev2.pipes j = dev.pipes j ∨
      ∃ p p2, dev.pipes j = some p ∧ dev2.pipes j = some p2 ∧
        p2.prev_signalled = p.prev_signalled ∧
        p2.next_signalled = p.next_signalled)
    (h : chainRep dev pr cur L) : chainRep dev2 pr cur L := by
  induction L generalizing pr cur with
  | nil => exact h
  | cons id rest ih =>
    obtain ⟨hc, hlt, p, hpp, hprev, hch⟩ := h
    rcases hp id (by simp) with heq | ⟨p', p2, hp1, hp2, hpr, hnx⟩
    · exact ⟨hc, hcap ▸ hlt, p, heq ▸ hpp, hprev,
        ih (fun j hj => hp j (by simp [hj])) hch⟩
    · have : p' = p := by rw [hp1] at hpp; exact Option.some_injective _ hpp
      subst this
      exact ⟨hc, hcap ▸ hlt, p2, hp2, hpr.trans hprev, hnx ▸
        ih (fun j hj => hp j (by simp [hj])) hch⟩

lemma chainRep_mem_lt {dev : goldfish_pipe_dev} {pr cur : Option Nat}
    {L : List Nat} (h : chainRep dev pr cur L) :
    ∀ id ∈ L, id < dev.pipes_capacity := by
  induction L generalizing pr cur with
  | nil => intro id hid; simp at hid
  | cons x rest ih =>
    obtain ⟨hc, hlt, p, hpp, hprev, hch⟩ := h
    intro id hid
    rcases List.mem_cons.mp hid with rfl | hid
    · exact hlt
    · exact ih hch id hid

lemma chainRep_mem_test {dev : goldfish_pipe_dev} {pr cur : Option Nat}
    {L : List Nat} (h : chainRep dev pr cur L) :
    ∀ id ∈ L, ∃ p, dev.pipes id = some p ∧
      (p.prev_signalled ≠ none ∨ cur = some id) := by
  induction L generalizing pr cur with
  | nil => intro id hid; simp at hid
  | cons x rest ih =>
    obtain ⟨hc, hlt, p, hpp, hprev, hch⟩ := h
    intro id hid
    rcases List.mem_cons.mp hid with rfl | hid
    · exact ⟨p, hpp, Or.inr hc⟩
    · obtain ⟨q, hq, hq2⟩ := ih hch id hid
      rcases hq2 with hq2 | hq2
      · exact ⟨q, hq, Or.inl hq2⟩
      · -- id is the head of rest, so its prev is some x
        cases rest with
        | nil => simp at hid
        | cons y t =>
          obtain ⟨hcy, _, q2, hq2p, hq2prev, _⟩ := hch
          have : y = id := by
            rw [hq2] at hcy
            exact (Option.some_injective _ hcy).symm
          subst this
          rw [hq] at hq2p
          have : q2 = q := Option.some_injective _ hq2p.symm
          subst this
          exact ⟨q2, hq, Or.inl (by rw [hq2prev]; simp)⟩

lemma setPipe_first (dev : goldfish_pipe_dev) (id : Nat) (p : Option goldfish_pipe) :
    (setPipe dev id p).first_signalled_pipe = dev.first_signalled_pipe := rfl

lemma setPipe_capacity (dev : goldfish_pipe_dev) (id : Nat) (p : Option goldfish_pipe) :
    (setPipe dev id p).pipes_capacity = dev.pipes_capacity := rfl

lemma setPipe_self (dev : goldfish_pipe_dev) (id : Nat) (p : Option goldfish_pipe) :
    (setPipe dev id p).pipes id = p := by simp [setPipe]

lemma setPipe_ne (dev : goldfish_pipe_dev) (id j : Nat) (p : Option goldfish_pipe)
    (h : j ≠ id) : (setPipe dev id p).pipes j = dev.pipes j := by
  simp [setPipe, h]

lemma first_mem {dev : goldfish_pipe_dev} {L : List Nat} {id : Nat}
    (hchain : chainRep dev none dev.first_signalled_pipe L)
    (hf : dev.first_signalled_pipe = some id) : id ∈ L := by
  cases L with
  | nil => rw [hchain] at hf; exact absurd hf (by simp)
  | cons x rest =>
    have hcx : dev.first_signalled_pipe = some x := hchain.1
    rw [hf] at hcx
    have : id = x := Option.some_injective _ hcx
    simp [this]

lemma add_represents (dev : goldfish_pipe_dev) (L : List Nat) (id f : Nat)
    (h : represents dev L) :
    represents (signalled_pipes_add_locked dev id f)
      (if id < dev.pipes_capacity ∧ (dev.pipes id).isSome ∧ id ∉ L
       then id :: L else L) := by
  obtain ⟨hchain, hnodup, hout⟩ := h
  by_cases hcap : dev.pipes_capacity ≤ id
  · rw [if_neg (by rintro ⟨h1, -, -⟩; omega)]
    unfold signalled_pipes_add_locked
    rw [if_pos hcap]
    exact ⟨hchain, hnodup, hout⟩
  · have hlt : id < dev.pipes_capacity := Nat.lt_of_not_le hcap
    cases hpid : dev.pipes id with
    | none =>
      rw [if_neg (by rintro ⟨-, hs, -⟩; simp [hpid] at hs)]
      unfold signalled_pipes_add_locked
      rw [if_neg hcap, hpid]
      exact ⟨hchain, hnodup, hout⟩
    | some p =>
      by_cases hmem : id ∈ L
      · rw [if_neg (by rintro ⟨-, -, hnm⟩; exact hnm hmem)]
        simp only [signalled_pipes_add_locked, hpid, hcap, if_false, setPipe_first]
        have ht : (p.prev_signalled.isSome || p.next_signalled.isSome ||
            decide (dev.first_signalled_pipe = some id)) = true := by
          obtain ⟨q, hq, hqc⟩ := chainRep_mem_test hchain id hmem
          rw [hpid] at hq
          obtain rfl : p = q := Option.some_injective _ hq
          rcases hqc with hqp | hqf
          · have hs : p.prev_signalled.isSome = true :=
              Option.ne_none_iff_isSome.mp hqp
            simp [hs]
          · simp [hqf]
        rw [if_pos ht]
        refine ⟨?_, hnodup, ?_⟩
        · rw [show (setPipe dev id
              (some { p with signalled_flags := p.signalled_flags ||| f })).first_signalled_pipe =
            dev.first_signalled_pipe from rfl]
          refine chainRep_links_congr (setPipe_capacity _ _ _) ?_ hchain
          intro j hj
          by_cases hji : j = id
          · subst hji
            exact Or.inr ⟨p, _, hpid, setPipe_self _ _ _, rfl, rfl⟩
          · exact Or.inl (setPipe_ne _ _ _ _ hji)
        · intro j hj q hq
          have hji : j ≠ id := by
            intro he
            rw [he] at hj
            exact hj hmem
          rw [setPipe_ne _ _ _ _ hji] at hq
          exact hout j hj q hq
      · rw [if_pos ⟨hlt, by simp [hpid], hmem⟩]
        simp only [signalled_pipes_add_locked, hpid, hcap, if_false, setPipe_first]
        obtain ⟨hpn, hnn⟩ := hout id hmem p hpid
        have hft : dev.first_signalled_pipe ≠ some id :=
          fun hf => hmem (first_mem hchain hf)
        have ht : (p.prev_signalled.isSome || p.next_signalled.isSome ||
            decide (dev.first_signalled_pipe = some id)) = false := by
          simp [hpn, hnn, hft]
        rw [if_neg (by simp [ht])]
        cases L with
        | nil =>
          have hfst : dev.first_signalled_pipe = none := hchain
          simp only [hfst]
          refine ⟨⟨rfl, hlt, _, setPipe_self _ _ _, hpn, rfl⟩, by simp, ?_⟩
          intro j hj q hq
          by_cases hji : j = id
          · subst hji
            rw [setPipe_self] at hq
            obtain rfl := Option.some_injective _ hq.symm
            exact ⟨hpn, rfl⟩
          · rw [setPipe_ne _ _ _ _ hji, setPipe_ne _ _ _ _ hji] at hq
            exact hout j (by simp) q hq
        | cons x rest =>
          obtain ⟨hcx, hxlt, px, hpx, hpxprev, hchx⟩ := hchain
          have hxid : x ≠ id := fun he => hmem (he ▸ List.mem_cons_self x rest)
          simp only [hcx]
          simp only [show (setPipe (setPipe dev id
              (some { p with signalled_flags := p.signalled_flags ||| f })) id
              (some { flags := p.flags,
                      signalled_flags := p.signalled_flags ||| f,
                      prev_signalled := p.prev_signalled,
                      next_signalled := some x })).pipes x = some px from by
            rw [setPipe_ne _ _ _ _ hxid, setPipe_ne _ _ _ _ hxid, hpx]]
          refine ⟨⟨rfl, hlt,
            { flags := p.flags, signalled_flags := p.signalled_flags ||| f,
              prev_signalled := p.prev_signalled, next_signalled := some x },
            ?_, hpn, ?_⟩, by simp [hnodup, hmem], ?_⟩
          · rw [setPipe_ne _ _ _ _ (Ne.symm hxid), setPipe_self]
          · refine ⟨rfl, hxlt,
              { flags := px.flags, signalled_flags := px.signalled_flags,
                prev_signalled := some id, next_signalled := px.next_signalled },
              setPipe_self _ _ _, rfl, ?_⟩
            refine chainRep_links_congr ?_ ?_ hchx
            · rfl
            · intro j hj
              have hjid : j ≠ id :=
                fun he => hmem (List.mem_cons_of_mem x (he ▸ hj))
              have hjx : j ≠ x :=
                fun he => (List.nodup_cons.mp hnodup).1 (he ▸ hj)
              refine Or.inl ?_
              rw [setPipe_ne _ _ _ _ hjx, setPipe_ne _ _ _ _ hjid,
                setPipe_ne _ _ _ _ hjid]
          · intro j hj q hq
            have hjid : j ≠ id := fun he => hj (by simp [he])
            have hjL : j ∉ x :: rest := fun he => hj (by simp [he])
            have hjx : j ≠ x := fun he => hjL (by simp [he])
            rw [setPipe_ne _ _ _ _ hjx, setPipe_ne _ _ _ _ hjid,
              setPipe_ne _ _ _ _ hjid] at hq
            exact hout j hjL q hq

lemma pop_represents (dev : goldfish_pipe_dev) (L : List Nat)
    (h : represents dev L) :
    represents (signalled_pipes_pop_front dev).1 L.tail := by
  obtain ⟨hchain, hnodup, hout⟩ := h
  cases L with
  | nil =>
    have hfst : dev.first_signalled_pipe = none := hchain
    simp only [signalled_pipes_pop_front, hfst]
    exact ⟨hchain, hnodup, hout⟩
  | cons x rest =>
    obtain ⟨hcx, hxlt, p, hpx, hpprev, hchx⟩ := hchain
    simp only [signalled_pipes_pop_front, hcx, hpx, setPipe_first, List.tail_cons]
    cases rest with
    | nil =>
      have hn : p.next_signalled = none := hchx
      simp only [hn, setPipe_self]
      refine ⟨rfl, by simp, ?_⟩
      intro j hj q hq
      by_cases hjx : j = x
      · subst hjx
        rw [setPipe_self] at hq
        obtain rfl := Option.some_injective _ hq.symm
        exact ⟨hpprev, rfl⟩
      · simp only [setPipe_ne _ _ _ _ hjx] at hq
        exact hout j (by simp [hjx]) q hq
    | cons y t =>
      obtain ⟨hcy, hylt, py, hpy, hpyprev, hchy⟩ := hchx
      have hxnodup := List.nodup_cons.mp hnodup
      have hxy : x ≠ y := fun he => hxnodup.1 (he ▸ List.mem_cons_self y t)
      simp only [hcy, setPipe_ne _ _ _ _ (Ne.symm hxy), hpy,
        setPipe_ne _ _ _ _ hxy, setPipe_self]
      refine ⟨⟨rfl, hylt,
        { flags := py.flags, signalled_flags := py.signalled_flags,
          prev_signalled := none, next_signalled := py.next_signalled },
        ?_, rfl, ?_⟩, hxnodup.2, ?_⟩
      · simp only [setPipe_ne _ _ _ _ (Ne.symm hxy), setPipe_self]
      · refine chainRep_links_congr ?_ ?_ hchy
        · rfl
        · intro j hj
          have hjy : j ≠ y := fun he => (List.nodup_cons.mp hxnodup.2).1 (he ▸ hj)
          have hjx : j ≠ x := fun he => hxnodup.1 (he ▸ List.mem_cons_of_mem y hj)
          refine Or.inl ?_
          simp only [setPipe_ne _ _ _ _ hjx, setPipe_ne _ _ _ _ hjy]
      · intro j hj q hq
        by_cases hjx : j = x
        · subst hjx
          rw [setPipe_self] at hq
          obtain rfl := Option.some_injective _ hq.symm
          exact ⟨hpprev, rfl⟩
        · have hjy : j ≠ y := fun he => hj (by simp [he])
          simp only [setPipe_ne _ _ _ _ hjx, setPipe_ne _ _ _ _ hjy] at hq
          exact hout j (by simp [hjx, fun h => hj h]) q hq

lemma applySigOps_WF (dev : goldfish_pipe_dev) (ops : List SigOp)
    (h : WFdev dev) : WFdev (applySigOps dev ops) := by
  induction ops generalizing dev with
  | nil => exact h
  | cons op rest ih =>
    apply ih
    obtain ⟨L, hL⟩ := h
    cases op with
    | add id f => exact ⟨_, add_represents dev L id f hL⟩
    | pop => exact ⟨_, pop_represents dev L hL⟩

lemma chainRep_sigChain (dev : goldfish_pipe_dev) {pr cur : Option Nat}
    {L : List Nat} (h : chainRep dev pr cur L) (fuel : Nat)
    (hf : L.length ≤ fuel) : sigChain dev fuel cur = L := by
  induction L generalizing pr cur fuel with
  | nil =>
    have hc : cur = none := h
    cases fuel <;> simp [sigChain, hc]
  | cons x rest ih =>
    obtain ⟨hc, hlt, p, hp, hprev, hch⟩ := h
    subst hc
    cases fuel with
    | zero => simp at hf
    | succ n =>
      simp only [sigChain, hp, Option.bind]
      exact congrArg (x :: ·) (ih hch n (by simpa using hf))

lemma represents_length_le {dev : goldfish_pipe_dev} {L : List Nat}
    (h : represents dev L) : L.length ≤ dev.pipes_capacity := by
  obtain ⟨hchain, hnodup, -⟩ := h
  have hmem := chainRep_mem_lt hchain
  have h1 : L.toFinset.card = L.length := List.toFinset_card_of_nodup hnodup
  have h2 : L.toFinset ⊆ Finset.range dev.pipes_capacity := by
    intro a ha
    simp only [List.mem_toFinset] at ha
    simpa using hmem a ha
  calc L.length = L.toFinset.card := h1.symm
    _ ≤ (Finset.range dev.pipes_capacity).card := Finset.card_le_card h2
    _ = dev.pipes_capacity := Finset.card_range _

lemma represents_sigList {dev : goldfish_pipe_dev} {L : List Nat}
    (h : represents dev L) : sigList dev = L :=
  chainRep_sigChain dev h.1 dev.pipes_capacity (represents_length_le h)

/-- C3: the signalled-pipe list is a proper set: from any well-formed device
state, every sequence of interrupt-handler insertions
(`signalled_pipes_add_locked`) and deferred-task pops
(`signalled_pipes_pop_front`) preserves well-formedness and the chain walked
from the head has no duplicates (a pipe occurs at most once); in particular
popping the head and then re-signalling the same pipe id leaves exactly one
list entry for it. -/
theorem C3_signalled_list_proper_set (dev : goldfish_pipe_dev) (ops : List SigOp)
    (h : WFdev dev) :
    WFdev (applySigOps dev ops) ∧
    (sigList (applySigOps dev ops)).Nodup ∧
    (sigList (applySigOps exampleDev
      [SigOp.pop, SigOp.add 0 PIPE_WAKE_READ])).count 0 = 1 := by
  obtain ⟨L, hL⟩ := applySigOps_WF dev ops h
  refine ⟨⟨L, hL⟩, ?_, by decide⟩
  rw [represents_sigList hL]
  exact hL.2.1

/-- C3 witness. -/
theorem C3_signalled_list_proper_set_witness :
    (sigList (applySigOps exampleDev
      [SigOp.pop, SigOp.add 0 PIPE_WAKE_READ])).count 0 = 1 := by
  have hrep : represents exampleDev [0, 1] := by
    refine ⟨⟨by decide, by decide,
      { flags := 0, signalled_flags := PIPE_WAKE_READ,
        prev_signalled := none, next_signalled := some 1 },
      by decide, by decide, by decide, by decide,
      { flags := 0, signalled_flags := PIPE_WAKE_WRITE,
        prev_signalled := some 0, next_signalled := none },
      by decide, by decide, rfl⟩, by decide, ?_⟩
    intro id hid q hq
    have h0 : id ≠ 0 := fun he => hid (by simp [he])
    have h1 : id ≠ 1 := fun he => hid (by simp [he])
    simp [exampleDev, h0, h1] at hq
  exact (C3_signalled_list_proper_set exampleDev [] ⟨[0, 1], hrep⟩).2.2


end GoldfishPipe
